import Mathlib

/-!
Verification of the chunked-summarization pipeline of the cursorifier
repository: the tokenizer/chunker (`src/llmGenerator.ts`), the provider
abstraction (`src/providers/*.ts`) and the progressive summarizer loop.

Strings are modelled as Lean `String`/`List Char`; JavaScript numbers as `ℚ`
(the source never relies on float rounding); JavaScript `undefined`/optional
values as `Option`; thrown exceptions as `Except`.  The external tokenizer
(`js-tiktoken`) is abstract: the chunker is modelled directly on the token
list it produces, and `decode` is an opaque parameter where chunk text is
embedded into prompts.
-/

namespace Cursorifier

/-- JavaScript truthiness of an optional string: `undefined` and the empty
string are falsy. -/
def truthyStr : Option String → Bool
  | none => false
  | some s => decide (s ≠ "")

/-- JavaScript truthiness of an optional number: `undefined` and `0` are
falsy (`NaN` is not modelled; no value in this program can be `NaN`). -/
def truthyNum : Option ℚ → Bool
  | none => false
  | some q => decide (q ≠ 0)

/-- JavaScript `x || d` for an optional numeric option `x`: the default is
used when `x` is absent or `0`. -/
def jsOrNum : Option ℚ → ℚ → ℚ
  | none, d => d
  | some q, d => if q = 0 then d else q

/-- The characters removed by ECMAScript `String.prototype.trim`:
WhiteSpace and LineTerminator code points. -/
def isJsWhitespace (c : Char) : Bool :=
  c = ' ' || c = '\t' || c = '\n' || c = '\r' || c = '\x0b' || c = '\x0c' ||
  c = '\u00A0' || c = '\u1680' || ('\u2000' ≤ c && c ≤ '\u200A') ||
  c = '\u2028' || c = '\u2029' || c = '\u202F' || c = '\u205F' ||
  c = '\u3000' || c = '\uFEFF'

/-- ECMAScript `String.prototype.trim` on a character list. -/
def jsTrim (s : List Char) : List Char :=
  ((s.dropWhile isJsWhitespace).reverse.dropWhile isJsWhitespace).reverse

/-- ECMAScript `String.prototype.trim`. -/
def jsTrimStr (s : String) : String :=
  (jsTrim s.data).asString

/-- ECMAScript `String.prototype.includes`. -/
def strContains (s pat : String) : Bool :=
  decide (pat.data <:+: s.data)

/-- The pattern `pat` occurs in `s` at position `i`. -/
def occursAt (pat s : List Char) (i : Nat) : Bool :=
  pat.isPrefixOf (s.drop i)

/-- Least position `≥ start` at which `pat` occurs in `s` (regex-style
leftmost search). -/
def findOccur (pat s : List Char) (start : Nat) : Option Nat :=
  (List.range (s.length + 1)).find? (fun i => decide (start ≤ i) && occursAt pat s i)

/-- Greatest position `≥ start` at which `pat` occurs in `s`. -/
def findLastOccur (pat s : List Char) (start : Nat) : Option Nat :=
  ((List.range (s.length + 1)).filter (fun i => decide (start ≤ i) && occursAt pat s i)).getLast?

/-! ## Tokenizer/Chunker (`src/llmGenerator.ts`, the `part_010` module) -/

/-- One pass of JavaScript `text.replace(/pat/g, '')` for a literal pattern:
scan left to right, drop each (non-overlapping, leftmost) occurrence of
`pat`.  Structural recursion on a fuel argument; `removeAll` supplies fuel
`s.length`, which suffices for every nonempty pattern (all five patterns of
`sanitizeText` are nonempty). -/
def removeAllAux (pat : List Char) : Nat → List Char → List Char
  | 0, s => s
  | _ + 1, [] => []
  | fuel + 1, c :: rest =>
    if pat.isPrefixOf (c :: rest) then removeAllAux pat fuel ((c :: rest).drop pat.length)
    else c :: removeAllAux pat fuel rest

/-- JavaScript `text.replace(/pat/g, '')` for a literal pattern. -/
def removeAll (pat s : List Char) : List Char :=
  removeAllAux pat s.length s

/-- `sanitizeText` (llmGenerator lines 17-25): strip `<|endoftext|>`,
`<|end|>`, `<|start|>`, null bytes and U+FFFD, in that order, then trim. -/
def sanitizeText (text : String) : String :=
  (jsTrim (removeAll "\uFFFD".data
    (removeAll "\u0000".data
      (removeAll "<|start|>".data
        (removeAll "<|end|>".data
          (removeAll "<|endoftext|>".data text.data)))))).asString

/-- `calculateChunkCount` (llmGenerator lines 82-86): `1` when the input
fits in one chunk, otherwise `Math.ceil(totalTokens / chunkSize)`. -/
def calculateChunkCount (totalTokens chunkSize : Nat) : Nat :=
  if totalTokens ≤ chunkSize then 1
  else (⌈(totalTokens : ℚ) / (chunkSize : ℚ)⌉).toNat

/-- The token slices produced by the `while (i < tokens.length)` loop of
`chunkIterator` (llmGenerator lines 138-157): `tokens.slice(i, min(i + cSize,
tokens.length))`, stepping `i` by `cSize`.  Structural recursion on fuel;
`chunkList` supplies fuel `tokens.length`, which suffices whenever
`0 < cSize` (for `cSize = 0` the source loop would never terminate; that
value is unreachable because the source replaces a falsy chunk size by the
default `100000` before the loop). -/
def chunkListAux (cSize : Nat) : Nat → List α → List (List α)
  | 0, _ => []
  | _ + 1, [] => []
  | fuel + 1, a :: t => ((a :: t).take cSize) :: chunkListAux cSize fuel ((a :: t).drop cSize)

/-- The list of token slices yielded by `chunkIterator`. -/
def chunkList (cSize : Nat) (tokens : List α) : List (List α) :=
  chunkListAux cSize tokens.length tokens

/-- The record yielded by `chunkIterator` for each chunk.  The source's
`chunk` field is `encoding.decode(chunkTokens)`; the model keeps the token
slice itself (the external tokenizer's `decode` is applied where the text is
consumed). -/
structure Chunk (α : Type) where
  chunk : List α
  index : Nat
  tokenCount : Nat
  totalChunks : Nat

/-- `chunkIterator` (llmGenerator lines 138-157) on the token stream: each
slice is yielded with its running index, its own token count, and the
precomputed total chunk count.  The generator's side effects before the
first yield — console output, the cost estimate and the interactive
cost-confirmation gate (declining exits the process before any chunk is
produced) — are elided: they do not alter the yielded sequence. -/
def chunkIterator (tokens : List α) (cSize : Nat) : List (Chunk α) :=
  (chunkList cSize tokens).enum.map
    (fun p => ⟨p.2, p.1, p.2.length, calculateChunkCount tokens.length cSize⟩)

/-! ## Final delimiter extraction (`extractContent`, llmGenerator lines 194-204) -/

/-- The delimiter tag selected by the output dialect: `clinerules` for
`cline`, `roomodes` for `roo`, `cursorrules` otherwise. -/
def tagNameFor (outputFormat : Option String) : String :=
  if outputFormat = some "cline" then "clinerules"
  else if outputFormat = some "roo" then "roomodes"
  else "cursorrules"

/-- The opening tag `<tag>`. -/
def openTag (outputFormat : Option String) : List Char :=
  ('<' :: (tagNameFor outputFormat).data) ++ ['>']

/-- The closing tag `</tag>`. -/
def closeTag (outputFormat : Option String) : List Char :=
  ('<' :: '/' :: (tagNameFor outputFormat).data) ++ ['>']

/-- The error thrown by `extractContent` when the pattern does not match. -/
def missingTagError (outputFormat : Option String) : String :=
  "Response does not contain <" ++ tagNameFor outputFormat ++
    "> tags. Make sure the model includes the required tags in its response."

/-- `extractContent` (llmGenerator lines 194-204) on a character list: the
first match of `new RegExp("<tag>([\\s\\S]*?)</tag>")` — the leftmost
occurrence of the opening tag, a lazily matched body, and the first closing
tag after it — trimmed; no match throws an error naming the tag.  (If the
leftmost opening tag has no closing tag after it, no later occurrence can
have one either, so the regex fails everywhere.) -/
def extractContentCore (outputFormat : Option String) (text : List Char) :
    Except String (List Char) :=
  match findOccur (openTag outputFormat) text 0 with
  | none => .error (missingTagError outputFormat)
  | some p =>
    match findOccur (closeTag outputFormat) text (p + (openTag outputFormat).length) with
    | none => .error (missingTagError outputFormat)
    | some q =>
      .ok (jsTrim ((text.drop (p + (openTag outputFormat).length)).take
        (q - (p + (openTag outputFormat).length))))

/-- `extractContent` on strings. -/
def extractContent (outputFormat : Option String) (text : String) : Except String String :=
  (extractContentCore outputFormat text.data).map List.asString

/-- Modelled from the spec's words (for comparison with the source's
`extractContent` only): the literal pattern `<tag>(.*)</tag>` with dot
matching newlines and a *greedy* star, first match — the capture runs from
the leftmost opening tag to the **last** closing tag after it. -/
def extractContentSpecGreedy (outputFormat : Option String) (text : String) :
    Except String String :=
  match findOccur (openTag outputFormat) text.data 0 with
  | none => .error (missingTagError outputFormat)
  | some p =>
    match findLastOccur (closeTag outputFormat) text.data
        (p + (openTag outputFormat).length) with
    | none => .error (missingTagError outputFormat)
    | some q =>
      .ok (jsTrim ((text.data.drop (p + (openTag outputFormat).length)).take
        (q - (p + (openTag outputFormat).length)))).asString

/-! ## Provider abstraction (`src/providers`) -/

/-- A chat message role (`src/types/llm-provider.ts`). -/
inductive Role : Type
  | system : Role
  | user : Role
  | assistant : Role
deriving DecidableEq

/-- A chat message. -/
structure LLMMessage where
  role : Role
  content : String
deriving DecidableEq

/-- `LLMProviderConfig`: every field except `model` is optional in the
TypeScript interface; `model` is typed as required but the validator still
guards it (a caller can pass `undefined` through), so it is optional here. -/
structure LLMProviderConfig where
  model : Option String
  apiKey : Option String
  baseURL : Option String
  maxTokens : Option ℚ
  temperature : Option ℚ
  region : Option String
deriving DecidableEq

/-- `BaseLLMProvider.validateConfig` (base-provider lines 25-41).  Note the
JavaScript truthiness guards: `config.maxTokens && config.maxTokens <= 0`
never fires for `maxTokens = 0` (zero is falsy), and likewise a zero
`temperature` skips the range check. -/
def validateConfig (requiresApiKey : Bool) (displayName : String)
    (config : LLMProviderConfig) : Except String Unit :=
  if requiresApiKey && !truthyStr config.apiKey then
    .error (displayName ++ " requires an API key. Please set the appropriate environment variable.")
  else if !truthyStr config.model then
    .error "Model is required for LLM generation"
  else if truthyNum config.maxTokens && decide (config.maxTokens.getD 0 ≤ 0) then
    .error "maxTokens must be a positive number"
  else if truthyNum config.temperature &&
      (decide (config.temperature.getD 0 < 0) || decide (config.temperature.getD 0 > 2)) then
    .error "temperature must be between 0 and 2"
  else
    .ok ()

/-- A JSON-like value, modelling the opaque response objects the providers
unwrap. -/
inductive Js : Type
  | null : Js
  | bool : Bool → Js
  | num : ℚ → Js
  | str : String → Js
  | arr : List Js → Js
  | obj : List (String × Js) → Js

/-- JavaScript property access `v[k]`: `none` models `undefined`. -/
def Js.get? : Js → String → Option Js
  | .obj fields, k => (fields.find? (fun f => f.1 = k)).map (fun f => f.2)
  | _, _ => none

/-- JavaScript truthiness of a value (`undefined` handled by `Option` at the
call sites). -/
def Js.truthy : Js → Bool
  | .null => false
  | .bool b => b
  | .num q => decide (q ≠ 0)
  | .str s => decide (s ≠ "")
  | .arr _ => true
  | .obj _ => true

/-- JavaScript `x || ''` for a possibly-undefined string-typed field. -/
def strOrEmpty : Option Js → String
  | some (.str s) => s
  | _ => ""

/-- JavaScript `x || 0` for a possibly-undefined number-typed field. -/
def numOrZero : Option Js → ℚ
  | some (.num n) => n
  | _ => 0

/-- Token-usage counters (`LLMResponse['usage']`). -/
structure Usage where
  promptTokens : ℚ
  completionTokens : ℚ
  totalTokens : ℚ
deriving DecidableEq

/-- `AnthropicProvider.extractContent` (anthropic-provider lines 126-134):
`content[0].text || ''` when a nonempty `content` array exists, the empty
string otherwise — never a failure. -/
def anthropicExtractContent (response : Js) : String :=
  match response.get? "content" with
  | some (.arr (c0 :: _)) => strOrEmpty (c0.get? "text")
  | _ => ""

/-- `AnthropicProvider.extractUsage` (anthropic-provider lines 139-151):
missing counters default to `0`; a missing or falsy `usage` yields
`undefined`. -/
def anthropicExtractUsage (response : Js) : Option Usage :=
  match response.get? "usage" with
  | some u =>
    if u.truthy then
      some ⟨numOrZero (u.get? "input_tokens"), numOrZero (u.get? "output_tokens"),
        numOrZero (u.get? "input_tokens") + numOrZero (u.get? "output_tokens")⟩
    else none
  | none => none

/-- `OpenAIProvider.extractContent` (openai-provider lines 103-111), also the
`LocalProvider` implementation, which is textually identical:
`choices[0].message?.content || ''`, the empty string otherwise — never a
failure. -/
def openaiExtractContent (response : Js) : String :=
  match response.get? "choices" with
  | some (.arr (c0 :: _)) => strOrEmpty ((c0.get? "message").bind (fun m => m.get? "content"))
  | _ => ""

/-- `OpenAIProvider.extractUsage` (openai-provider lines 116-128), also the
`LocalProvider` implementation: each counter defaults to `0`; missing or
falsy `usage` yields `undefined`. -/
def openaiExtractUsage (response : Js) : Option Usage :=
  match response.get? "usage" with
  | some u =>
    if u.truthy then
      some ⟨numOrZero (u.get? "prompt_tokens"), numOrZero (u.get? "completion_tokens"),
        numOrZero (u.get? "total_tokens")⟩
    else none
  | none => none

/-- `BedrockProvider.extractContent` (bedrock-provider lines 220-246).  The
argument is the JSON-parsed response body (`none` when the response has no
`body`).  Five model-family shapes are recognized; anything else — including
a missing body — throws `Unable to extract content from Bedrock response`. -/
def bedrockExtractContent (body : Option Js) : Except String String :=
  match body with
  | some rb =>
    match rb.get? "content" with
    | some (.arr cs) => .ok (strOrEmpty ((cs.head?).bind (fun c => c.get? "text")))
    | _ =>
      match rb.get? "results" with
      | some (.arr rs) => .ok (strOrEmpty ((rs.head?).bind (fun r => r.get? "outputText")))
      | _ =>
        match rb.get? "generation" with
        | some g =>
          if g.truthy then .ok (strOrEmpty (some g))
          else fallback rb
        | none => fallback rb
  | none => .error "Unable to extract content from Bedrock response"
where
  /-- The `generations` and `text` branches and the final throw. -/
  fallback (rb : Js) : Except String String :=
    match rb.get? "generations" with
    | some (.arr gs) => .ok (strOrEmpty ((gs.head?).bind (fun g => g.get? "text")))
    | _ =>
      match rb.get? "text" with
      | some t =>
        if t.truthy then .ok (strOrEmpty (some t))
        else .error "Unable to extract content from Bedrock response"
      | none => .error "Unable to extract content from Bedrock response"

/-- `BedrockProvider.extractUsage` (bedrock-provider lines 248-275): a truthy
`usage` object wins, else the Titan-style `inputTokenCount`/`outputTokenCount`
pair when both are defined, else `undefined`. -/
def bedrockExtractUsage (body : Option Js) : Option Usage :=
  match body with
  | some rb =>
    match rb.get? "usage" with
    | some u =>
      if u.truthy then
        some ⟨numOrZero (u.get? "input_tokens"), numOrZero (u.get? "output_tokens"),
          numOrZero (u.get? "input_tokens") + numOrZero (u.get? "output_tokens")⟩
      else titan rb
    | none => titan rb
  | none => none
where
  /-- The `inputTokenCount !== undefined && outputTokenCount !== undefined`
  branch. -/
  titan (rb : Js) : Option Usage :=
    match rb.get? "inputTokenCount", rb.get? "outputTokenCount" with
    | some i, some o =>
      some ⟨numOrZero (some i), numOrZero (some o), numOrZero (some i) + numOrZero (some o)⟩
    | _, _ => none

/-! ## The Anthropic request shape and retry loop
(`src/providers/anthropic-provider.ts`) -/

/-- A message as sent to the Anthropic API. -/
structure AnthropicReqMsg where
  role : Role
  content : String
deriving DecidableEq

/-- The request body built by `AnthropicProvider.generateResponse`
(anthropic-provider lines 54-76). -/
structure AnthropicRequest where
  model : Option String
  max_tokens : ℚ
  system : Option String
  messages : List AnthropicReqMsg
deriving DecidableEq

/-- The request shaping of anthropic-provider lines 54-76: the first
system-role message becomes the `system` string; user/assistant messages are
kept in order, except that the last one is re-sent under role `user`
whatever its original role.  When the input holds no user/assistant message
at all, `userMessages[userMessages.length - 1]` is `undefined` and reading
its `content` throws before any request is sent: that is `none` here. -/
def buildAnthropicRequest (msgs : List LLMMessage) (config : LLMProviderConfig) :
    Option AnthropicRequest :=
  let systemMessage := msgs.find? (fun m => m.role = Role.system)
  let userMessages := msgs.filter (fun m => m.role = Role.user || m.role = Role.assistant)
  match userMessages.getLast? with
  | none => none
  | some lastMessage =>
    some
      { model := config.model
        max_tokens := jsOrNum config.maxTokens 8000
        system := systemMessage.map (fun m => m.content)
        messages :=
          (userMessages.dropLast.map (fun m =>
            ⟨if m.role = Role.assistant then Role.assistant else Role.user, m.content⟩)) ++
          [⟨Role.user, lastMessage.content⟩] }

/-- The request body built by `OpenAIProvider.generateResponse`
(openai-provider lines 60-70); `LocalProvider` builds the identical body.
`formatMessages` (base-provider lines 76-81) trims each message. -/
structure OpenAIRequest where
  model : Option String
  messages : List LLMMessage
  max_tokens : ℚ
  temperature : ℚ
deriving DecidableEq

/-- `OpenAIProvider.generateResponse`'s request: trimmed messages, defaulted
`max_tokens`/`temperature` (`|| 8000`, `|| 0.7`). -/
def buildOpenAIRequest (msgs : List LLMMessage) (config : LLMProviderConfig) :
    OpenAIRequest :=
  { model := config.model
    messages := msgs.map (fun m => { m with content := jsTrimStr m.content })
    max_tokens := jsOrNum config.maxTokens 8000
    temperature := jsOrNum config.temperature (7 / 10) }

/-- The inter-chunk pause of `generateWithProvider` (llmGenerator line 353):
`options.chunkDelay || 5000` milliseconds. -/
def interChunkDelay (chunkDelay : Option ℚ) : ℚ :=
  jsOrNum chunkDelay 5000

/-- An error signal caught by a provider: an optional HTTP `status` and, for
`Error` instances, a `message` (`none` models a thrown non-`Error` value). -/
structure ApiErr where
  status : Option Nat
  message : Option String
deriving DecidableEq

/-- The rate-limit test of anthropic-provider line 92:
`errorObj.status === 429 || (errorObj.message && errorObj.message.includes('rate limit'))`. -/
def isRateLimit (e : ApiErr) : Bool :=
  e.status = some 429 ||
    (match e.message with
     | some m => decide (m ≠ "") && strContains m "rate limit"
     | none => false)

/-- `BaseLLMProvider.handleApiError` (base-provider lines 51-71): classify
the failure by message substring and re-throw with a category prefix (the
terminal color wrappers are elided — outside a TTY `picocolors` is the
identity). -/
def handleApiError (e : ApiErr) (context : String) : String :=
  match e.message with
  | some m =>
    if strContains m "API key" then "Authentication failed: " ++ m
    else if strContains m "rate limit" || strContains m "quota" then
      "Rate limit exceeded: " ++ m
    else if strContains m "timeout" then "Request timeout: " ++ m
    else if strContains m "network" || strContains m "connection" then
      "Network error: " ++ m
    else context ++ ": " ++ m
  | none => context ++ ": Unknown error occurred"

/-- The value `AnthropicProvider.generateResponse` resolves to. -/
structure LLMResponse where
  content : String
  usage : Option Usage
  model : Option String
  provider : String
deriving DecidableEq

/-- The observable outcome of one `generateResponse` call: the settled value
and the sequence of backoff sleeps performed, in order. -/
structure RetryOutcome where
  result : Except String LLMResponse
  delays : List Nat

/-- The body of one `try` block of `AnthropicProvider.generateResponse`
(anthropic-provider lines 49-86): validate the config, shape the request,
perform the network call (the oracle `net`, indexed by attempt number,
standing for `client.messages.create`), and unwrap the response.  A
validation failure or the `TypeError` of an empty user/assistant list is
thrown inside the same `try`, so it reaches the same `catch`. -/
def anthropicAttempt (config : LLMProviderConfig) (msgs : List LLMMessage)
    (net : Nat → Except ApiErr Js) (attempt : Nat) : Except ApiErr LLMResponse :=
  match validateConfig true "Anthropic Claude" config with
  | .error ve => .error ⟨none, some ve⟩
  | .ok _ =>
    match buildAnthropicRequest msgs config with
    | none => .error ⟨none, some "Cannot read properties of undefined (reading 'content')"⟩
    | some _req =>
      match net attempt with
      | .error e => .error e
      | .ok resp =>
        .ok ⟨anthropicExtractContent resp, anthropicExtractUsage resp,
          config.model, "anthropic"⟩

/-- The `for (let attempt = 0; attempt <= maxRetries; attempt++)` loop of
`AnthropicProvider.generateResponse` (lines 45-107), `maxRetries = 3`: a
rate-limited failure before the last attempt sleeps `2^attempt * 2000` ms
and retries; any other failure — and a rate-limited failure on the final
attempt — is re-thrown at once through `handleApiError`.  Structural
recursion on fuel; `anthropicGenerateResponse` supplies fuel `4`, the
loop's iteration count, so the base case (the source's unreachable line 107)
is never taken. -/
def anthropicRetryLoop (config : LLMProviderConfig) (msgs : List LLMMessage)
    (net : Nat → Except ApiErr Js) : Nat → Nat → RetryOutcome
  | 0, _ => ⟨.error "All retry attempts failed", []⟩
  | fuel + 1, attempt =>
    match anthropicAttempt config msgs net attempt with
    | .ok r => ⟨.ok r, []⟩
    | .error e =>
      if isRateLimit e && decide (attempt < 3) then
        let rest := anthropicRetryLoop config msgs net fuel (attempt + 1)
        ⟨rest.result, (2 ^ attempt * 2000) :: rest.delays⟩
      else ⟨.error (handleApiError e "Anthropic API error"), []⟩

/-- `AnthropicProvider.generateResponse` (anthropic-provider lines 41-108). -/
def anthropicGenerateResponse (config : LLMProviderConfig) (msgs : List LLMMessage)
    (net : Nat → Except ApiErr Js) : RetryOutcome :=
  anthropicRetryLoop config msgs net 4 0

/-! ## Progressive summarizer (`generateWithProvider`, llmGenerator lines 162-372) -/

/-- `outputFormat === 'cline'`. -/
def isCline (fmt : Option String) : Bool := fmt = some "cline"

/-- `outputFormat === 'roo'`. -/
def isRoo (fmt : Option String) : Bool := fmt = some "roo"

/-- The system-role instruction (llmGenerator lines 220-224). -/
def systemPrompt (fmt : Option String) : String :=
  if isCline fmt then
    "You are an expert AI system designed to analyze code repositories and generate Cline rules. Your task is to create a .clinerules file based on the provided repository content and guidelines."
  else if isRoo fmt then
    "You are an expert AI system designed to analyze code repositories and generate Roo Custom Modes. Your task is to create a .roomodes YAML configuration file based on the provided repository content and guidelines."
  else
    "You are an expert AI system designed to analyze code repositories and generate Cursor AI rules. Your task is to create a .cursorrules file based on the provided repository content and guidelines."

/-- The `outputType` interpolation (llmGenerator lines 230-232 and 280-282). -/
def outputTypeName (fmt : Option String) : String :=
  if isCline fmt then "Cline rules (.clinerules)"
  else if isRoo fmt then "Roo Custom Modes (.roomodes)"
  else "Cursor rules (.cursorrules)"

/-- The creation prompt built for chunk index 0 (llmGenerator lines 234-277),
with every `${… ? … : ''}` conditional of the template literal reproduced
(string truthiness included: an empty `description` or `ruleType` behaves
like an absent one). -/
def firstChunkPrompt (fmt desc rt : Option String) (guidelines chunkText : String) : String :=
  "I need your help to create " ++ outputTypeName fmt ++
  " for my project. Please follow this process:\n\n1. First, carefully read and understand this codebase chunk:\n\n<repository_chunk>\n" ++
  chunkText ++
  "\n</repository_chunk>\n\n2. Now, review these guidelines for creating effective Cursor rules:\n\n<guidelines>\n" ++
  guidelines ++ "\n</guidelines>\n\n" ++
  (if truthyStr desc then
    "3. I specifically want to create rules for: \"" ++ desc.getD "" ++ "\"" else "") ++ "\n" ++
  (if truthyStr rt then
    "4. The rule type should be: \"" ++ rt.getD "" ++ "\"" else "") ++ "\n\n" ++
  (if truthyStr desc || truthyStr rt then "5" else "3") ++
  ". Analyze the repository content and structure, considering:\n   - Main technologies, frameworks, and languages used\n   - Coding patterns, naming conventions, and architectural decisions\n   - Overall codebase structure including key directories and file types\n   - Project-specific practices and testing guidelines\n   - Guidelines and standards documented in comments or markdown files by developers\n\nPresent your analysis inside <repository_analysis> tags.\n\n" ++
  (if truthyStr desc || truthyStr rt then "6" else "4") ++
  ". Create a complete " ++
  (if isCline fmt then ".clinerules" else if isRoo fmt then ".roomodes YAML configuration"
   else ".cursorrules") ++
  " file that:\n   - Is specific to this repository's structure and technologies\n   - Includes best practices and guidelines from code, comments, and documentation\n   - Organizes rules to match the codebase structure\n   - Is concise and actionable\n   - Includes testing best practices and guidelines\n   - Uses valid " ++
  (if isRoo fmt then "YAML" else "Markdown") ++ " format" ++
  (if truthyStr rt then
    "\n   - Follows the rule type: \"" ++ rt.getD "" ++ "\"" else "") ++
  (if truthyStr desc then
    "\n   - Addresses the specific request: \"" ++ desc.getD "" ++ "\"" else "") ++
  "\n\nInclude your final " ++
  (if isCline fmt then "clinerules" else if isRoo fmt then "roomodes YAML" else "cursorrules") ++
  " content inside <" ++ tagNameFor fmt ++ "> tags.\nBe concise - the final " ++
  tagNameFor fmt ++ " file text must be not more than one page long.\n\nExample structure:\n\n" ++
  (if isCline fmt then
    "<clinerules>\n...markdown content of the .clinerules file, following the guidelines and analysis...\n</clinerules>"
   else if isRoo fmt then
    "<roomodes>\n...YAML content of the .roomodes file, following the guidelines and analysis...\n</roomodes>"
   else
    "<cursorrules>\n...markdown content of the .cursorrules file, following the guidelines and analysis...\n</cursorrules>")

/-- The update prompt built for chunk index `> 0` (llmGenerator lines
284-327): the current running draft is inlined verbatim between
`<current_rules>` tags, followed by the new chunk and the guidelines. -/
def updateChunkPrompt (fmt desc rt : Option String)
    (guidelines chunkText currentSummary : String) : String :=
  "I need your help to update " ++ outputTypeName fmt ++
  " based on a new chunk of my project:\n\n1. Here is the current " ++
  (if isCline fmt then ".clinerules" else if isRoo fmt then ".roomodes" else ".cursorrules") ++
  " file content:\n\n<current_rules>\n" ++ currentSummary ++
  "\n</current_rules>\n\n2. Now, carefully review this new repository chunk:\n\n<repository_chunk>\n" ++
  chunkText ++
  "\n</repository_chunk>\n\n3. Review these guidelines for creating effective " ++
  (if isCline fmt then "Cline rules" else if isRoo fmt then "Roo Custom Modes"
   else "Cursor rules") ++ ":\n\n<guidelines>\n" ++ guidelines ++ "\n</guidelines>\n\n" ++
  (if truthyStr desc then
    "4. Remember, I specifically want to create rules for: \"" ++ desc.getD "" ++ "\""
   else "") ++ "\n" ++
  (if truthyStr rt then
    (if truthyStr desc then "5" else "4") ++ ". The rule type should be: \"" ++
      rt.getD "" ++ "\""
   else "") ++ "\n\n" ++
  (if truthyStr desc || truthyStr rt then
    (if truthyStr desc && truthyStr rt then "6" else "5") else "4") ++
  ". Analyze this new chunk for:\n   - New technologies, frameworks, or languages not previously covered\n   - Additional coding patterns, naming conventions, or architectural decisions\n   - Further insights into codebase structure\n   - Project-specific practices and testing guidelines\n   - Guidelines and standards documented in comments or markdown files by developers\n\nPresent your analysis inside <new_insights> tags.\n\n" ++
  (if truthyStr desc || truthyStr rt then
    (if truthyStr desc && truthyStr rt then "7" else "6") else "5") ++
  ". Update the existing rules by:\n   - Preserving all valuable information from existing rules\n   - Maintaining the same structure and organization\n   - Adding new information only for patterns not already covered\n   - Being specific about code structure and patterns\n   - Including testing-related insights and best practices\n   - Being concise but comprehensive" ++
  (if truthyStr rt then
    "\n   - Following the rule type: \"" ++ rt.getD "" ++ "\"" else "") ++
  (if truthyStr desc then
    "\n   - Addressing the specific request: \"" ++ desc.getD "" ++ "\"" else "") ++
  "\n\nInclude your final updated " ++
  (if isCline fmt then ".clinerules" else if isRoo fmt then ".roomodes YAML"
   else ".cursorrules") ++
  " content inside <" ++ tagNameFor fmt ++ "> tags.\nBe concise - the final " ++
  tagNameFor fmt ++ " file text must be not more than one page long."

/-- The user prompt built for one chunk (llmGenerator lines 226-328): the
creation prompt for `index === 0`, the update prompt — which inlines the
running draft — for every later chunk. -/
def mkUserPrompt (fmt desc rt : Option String) (guidelines : String)
    (decode : List Nat → String) (c : Chunk Nat) (summary : String) : String :=
  if c.index = 0 then firstChunkPrompt fmt desc rt guidelines (decode c.chunk)
  else updateChunkPrompt fmt desc rt guidelines (decode c.chunk) summary

/-- One loop iteration's observables: the user prompt that was sent and the
raw provider response that replaced the running draft. -/
structure StepTrace where
  prompt : String
  response : String

/-- The `for await (const {chunk, index, …} of chunkGen)` loop of
`generateWithProvider` (llmGenerator lines 209-364): each chunk builds a
creation prompt (index 0) or an update prompt carrying the running draft,
sends `[system, user]` to the provider (the oracle `respond`, standing for
`provider.generateResponse`, maps the two prompts to the raw response
content), and replaces the running draft wholesale with that raw response.
Returns the final draft and the per-chunk trace in processing order. -/
def runChunksLoop (fmt desc rt : Option String) (guidelines : String)
    (decode : List Nat → String) (respond : String → String → String) :
    List (Chunk Nat) → String → String × List StepTrace
  | [], summary => (summary, [])
  | c :: rest, summary =>
    let userPrompt := mkUserPrompt fmt desc rt guidelines decode c summary
    let resp := respond (systemPrompt fmt) userPrompt
    let r := runChunksLoop fmt desc rt guidelines decode respond rest resp
    (r.1, ⟨userPrompt, resp⟩ :: r.2)

/-- `generateWithProvider` (llmGenerator lines 162-372): validate the merged
config first (before any provider call), then drive every chunk of
`chunkIterator` through the provider, and only at the very end run
`extractContent` on the final running draft (which started as `''`).  The
registry lookup and default-config merge are upstream of `config`; the
per-chunk side effects — progress output, the intermediate draft written to
disk, the inter-chunk `chunkDelay || 5000` sleep (see `interChunkDelay`) —
and the re-wrapping of a failed provider call with the chunk number are
elided: `respond` stands for a provider call that succeeds with raw content. -/
def generateWithProviderModel (fmt desc rt : Option String) (guidelines : String)
    (decode : List Nat → String) (respond : String → String → String)
    (requiresApiKey : Bool) (displayName : String) (config : LLMProviderConfig)
    (tokens : List Nat) (cSize : Nat) : Except String String :=
  match validateConfig requiresApiKey displayName config with
  | .error e => .error e
  | .ok _ =>
    extractContent fmt
      (runChunksLoop fmt desc rt guidelines decode respond (chunkIterator tokens cSize) "").1

/-! ## Concrete fixtures used by witnesses -/

/-- A minimal valid configuration. -/
def baseTestConfig : LLMProviderConfig := ⟨some "m", some "k", none, none, none, none⟩

/-- A valid Anthropic configuration. -/
def anthropicTestConfig : LLMProviderConfig :=
  ⟨some "claude-3-5-sonnet-20241022", some "sk-test", none, none, none, none⟩

/-- A system message and one user message. -/
def testMessages : List LLMMessage := [⟨Role.system, "sys"⟩, ⟨Role.user, "hello"⟩]

/-- A message list whose last non-system message is an assistant turn. -/
def reshapeTestMessages : List LLMMessage :=
  [⟨Role.system, "s"⟩, ⟨Role.user, "u"⟩, ⟨Role.assistant, "a"⟩]

/-- A network oracle that is rate-limited twice, then succeeds. -/
def testNet : Nat → Except ApiErr Js :=
  fun j => if j < 2 then .error ⟨some 429, none⟩ else .ok (Js.obj [])

/-- A deterministic provider oracle. -/
def testRespond : String → String → String := fun _ _ => "resp"

/-- A stand-in for the external tokenizer's `decode`. -/
def testDecode : List Nat → String := fun _ => "chunk text"

/-! ## Generic search and infix lemmas -/

theorem find?_range'_none (p : Nat → Bool) :
    ∀ (n s : Nat), (∀ i, s ≤ i → i < s + n → p i = false) →
      (List.range' s n).find? p = none := by
  intro n
  induction n with
  | zero => intro s _; rfl
  | succ n ih =>
    intro s h
    simp only [List.range'_succ, List.find?_cons, h s le_rfl (by omega)]
    exact ih (s + 1) (fun i h1 h2 => h i (by omega) (by omega))

theorem find?_range'_eq_some_of (p : Nat → Bool) :
    ∀ (n s j : Nat), s ≤ j → j < s + n → p j = true →
      (∀ i, s ≤ i → i < j → p i = false) → (List.range' s n).find? p = some j := by
  intro n
  induction n with
  | zero => intro s j h1 h2 _ _; omega
  | succ n ih =>
    intro s j h1 h2 h3 h4
    rcases Nat.eq_or_lt_of_le h1 with rfl | hlt
    · simp [List.range'_succ, List.find?_cons, h3]
    · simp only [List.range'_succ, List.find?_cons, h4 s le_rfl hlt]
      exact ih (s + 1) j hlt (by omega) h3 (fun i ha hb => h4 i (by omega) hb)

theorem findOccur_eq_some (pat s : List Char) (start j : Nat) (hj : j ≤ s.length)
    (hstart : start ≤ j) (hocc : occursAt pat s j = true)
    (hmin : ∀ i, start ≤ i → i < j → occursAt pat s i = false) :
    findOccur pat s start = some j := by
  unfold findOccur
  rw [List.range_eq_range']
  apply find?_range'_eq_some_of
  · omega
  · omega
  · simp [hstart, hocc]
  · intro i h0 hij
    by_cases hsi : start ≤ i
    · simp [hmin i hsi hij]
    · simp [hsi]

theorem infix_append_of_infix {α : Type} {l l₂ : List α} (l₁ : List α)
    (h : l <:+: l₂) : l <:+: l₁ ++ l₂ := by
  obtain ⟨u, v, huv⟩ := h
  exact ⟨l₁ ++ u, v, by rw [← huv]; simp [List.append_assoc]⟩

/-! ## Chunker lemmas -/

theorem chunkListAux_flatten {α : Type} (c : Nat) (hc : 0 < c) :
    ∀ (fuel : Nat) (l : List α), l.length ≤ fuel → (chunkListAux c fuel l).flatten = l := by
  intro fuel
  induction fuel with
  | zero =>
    intro l hl
    rw [Nat.le_zero, List.length_eq_zero] at hl
    subst hl; rfl
  | succ n ih =>
    intro l hl
    cases l with
    | nil => rfl
    | cons a t =>
      show ((a :: t).take c :: chunkListAux c n ((a :: t).drop c)).flatten = a :: t
      rw [List.flatten_cons,
        ih _ (by rw [List.length_drop]; simp only [List.length_cons]; simp only [List.length_cons] at hl; omega)]
      exact List.take_append_drop c (a :: t)

theorem chunkListAux_length {α : Type} (c : Nat) (hc : 0 < c) :
    ∀ (fuel : Nat) (l : List α), l.length ≤ fuel →
      (chunkListAux c fuel l).length = (l.length + c - 1) / c := by
  intro fuel
  induction fuel with
  | zero =>
    intro l hl
    rw [Nat.le_zero, List.length_eq_zero] at hl
    subst hl
    show 0 = (0 + c - 1) / c
    rw [Nat.zero_add]
    exact (Nat.div_eq_of_lt (by omega)).symm
  | succ n ih =>
    intro l hl
    cases l with
    | nil =>
      show 0 = (0 + c - 1) / c
      rw [Nat.zero_add]
      exact (Nat.div_eq_of_lt (by omega)).symm
    | cons a t =>
      show ((a :: t).take c :: chunkListAux c n ((a :: t).drop c)).length
        = ((a :: t).length + c - 1) / c
      rw [List.length_cons,
        ih _ (by rw [List.length_drop]; simp only [List.length_cons]; simp only [List.length_cons] at hl; omega)]
      rw [List.length_drop]
      simp only [List.length_cons]
      rcases Nat.lt_or_ge c (t.length + 1) with h | h
      · have e1 : t.length + 1 - c + c - 1 = t.length := by omega
        have e2 : t.length + 1 + c - 1 = t.length + c := by omega
        rw [e1, e2, Nat.add_div_right _ hc]
      · have e1 : t.length + 1 - c = 0 := by omega
        rw [e1, Nat.zero_add, Nat.div_eq_of_lt (by omega)]
        symm
        apply Nat.div_eq_of_lt_le <;> omega

theorem chunkList_flatten {α : Type} (c : Nat) (hc : 0 < c) (l : List α) :
    (chunkList c l).flatten = l :=
  chunkListAux_flatten c hc l.length l le_rfl

theorem chunkList_length {α : Type} (c : Nat) (hc : 0 < c) (l : List α) :
    (chunkList c l).length = (l.length + c - 1) / c :=
  chunkListAux_length c hc l.length l le_rfl

theorem toNat_ceil_div_eq (n c : Nat) (hc : 0 < c) (hn : 0 < n) :
    (⌈(n : ℚ) / (c : ℚ)⌉).toNat = (n + c - 1) / c := by
  have hA := Nat.div_add_mod (n + c - 1) c
  have hB := Nat.mod_lt (n + c - 1) hc
  set q := (n + c - 1) / c with hq
  set r := (n + c - 1) % c with hr
  obtain ⟨m, hm⟩ : ∃ m, m = c * q := ⟨_, rfl⟩
  rw [← hm] at hA
  have h1 : n ≤ m := by omega
  have h2 : m ≤ n + c - 1 := by omega
  have hcq : (0 : ℚ) < (c : ℚ) := by exact_mod_cast hc
  have hmq : (m : ℚ) = (c : ℚ) * (q : ℚ) := by exact_mod_cast hm
  have h1q : (n : ℚ) ≤ (m : ℚ) := by exact_mod_cast h1
  have h2q : (m : ℚ) ≤ (n : ℚ) + (c : ℚ) - 1 := by
    have := (Nat.cast_le (α := ℚ)).mpr h2
    rwa [Nat.cast_sub (by omega), Nat.cast_add, Nat.cast_one] at this
  have hceil : ⌈(n : ℚ) / (c : ℚ)⌉ = (q : ℤ) := by
    rw [Int.ceil_eq_iff]
    constructor
    · rw [lt_div_iff hcq]
      push_cast
      nlinarith
    · rw [div_le_iff hcq]
      push_cast
      nlinarith
  rw [hceil, Int.toNat_natCast]

theorem calculateChunkCount_eq (n c : Nat) (hc : 0 < c) (hn : 0 < n) :
    calculateChunkCount n c = (n + c - 1) / c := by
  unfold calculateChunkCount
  split
  · next h =>
    symm
    apply Nat.div_eq_of_lt_le <;> omega
  · next h =>
    exact toNat_ceil_div_eq n c hc hn

theorem chunkIterator_map_chunk {α : Type} (tokens : List α) (c : Nat) :
    (chunkIterator tokens c).map Chunk.chunk = chunkList c tokens := by
  simp only [chunkIterator, List.map_map]
  have h : (Chunk.chunk ∘ fun p : Nat × List α =>
      (⟨p.2, p.1, p.2.length, calculateChunkCount tokens.length c⟩ : Chunk α)) = Prod.snd := rfl
  rw [h, List.enum_map_snd]

theorem chunkIterator_map_tokenCount {α : Type} (tokens : List α) (c : Nat) :
    (chunkIterator tokens c).map Chunk.tokenCount = (chunkList c tokens).map List.length := by
  simp only [chunkIterator, List.map_map]
  have h : (Chunk.tokenCount ∘ fun p : Nat × List α =>
      (⟨p.2, p.1, p.2.length, calculateChunkCount tokens.length c⟩ : Chunk α))
      = (List.length ∘ Prod.snd) := rfl
  rw [h, ← List.map_map, List.enum_map_snd]

theorem chunkIterator_length {α : Type} (tokens : List α) (c : Nat) :
    (chunkIterator tokens c).length = (chunkList c tokens).length := by
  simp [chunkIterator]

/-! ## Claim C1 -/

/-- C1: for every token stream and positive chunk size, the chunks yielded by
`chunkIterator` partition the stream — their token slices concatenate back to
the exact stream (each token in exactly one chunk, no overlap, no gap), the
chunks carry ascending indices `0, 1, 2, …` in emission order, each chunk's
`tokenCount` is the length of its slice, and the `tokenCount` fields sum to
the total token count. -/
theorem C1_chunk_partition (tokens : List Nat) (cSize : Nat) (hc : 0 < cSize) :
    ((chunkIterator tokens cSize).map Chunk.chunk).flatten = tokens
    ∧ (∀ i (hi : i < (chunkIterator tokens cSize).length),
        ((chunkIterator tokens cSize).get ⟨i, hi⟩).index = i)
    ∧ ((chunkIterator tokens cSize).map Chunk.tokenCount).sum = tokens.length
    ∧ ∀ ch ∈ chunkIterator tokens cSize, ch.tokenCount = ch.chunk.length := by
  have hflat : (chunkList cSize tokens).flatten = tokens := chunkList_flatten cSize hc tokens
  refine ⟨?_, ?_, ?_, ?_⟩
  · rw [chunkIterator_map_chunk]; exact hflat
  · intro i hi
    simp [chunkIterator, List.get_eq_getElem, List.getElem_map, List.getElem_enum]
  · rw [chunkIterator_map_tokenCount, ← List.length_flatten, hflat]
  · intro ch hch
    simp only [chunkIterator, List.mem_map] at hch
    obtain ⟨p, _, rfl⟩ := hch
    rfl

/-- Witness for C1: the partition property at the concrete stream
`[1,2,3,4,5]` with chunk size 2. -/
theorem C1_chunk_partition_witness :
    ((chunkIterator [1, 2, 3, 4, 5] 2).map Chunk.chunk).flatten = [1, 2, 3, 4, 5] :=
  (C1_chunk_partition [1, 2, 3, 4, 5] 2 (by decide)).1

/-! ## Claim C4 -/

/-- C4 (amended): the chunk count is 1 when `totalTokens ≤ chunkSize` and
`⌈totalTokens / chunkSize⌉` otherwise (concretely 3 for 250000 tokens at
chunk size 100000), and the iterator yields exactly that many chunks for
every **nonempty** token stream.  For the empty stream the claim fails: the
computed count is 1 but the loop body never runs and zero chunks are
yielded (see the counterexample). -/
theorem C4_chunk_count (chunkSize : Nat) (hc : 0 < chunkSize) :
    (∀ totalTokens, totalTokens ≤ chunkSize → calculateChunkCount totalTokens chunkSize = 1)
    ∧ (∀ totalTokens, chunkSize < totalTokens →
        (calculateChunkCount totalTokens chunkSize : ℤ)
          = ⌈(totalTokens : ℚ) / (chunkSize : ℚ)⌉)
    ∧ calculateChunkCount 250000 100000 = 3
    ∧ (∀ tokens : List Nat, tokens ≠ [] →
        (chunkIterator tokens chunkSize).length
          = calculateChunkCount tokens.length chunkSize) := by
  refine ⟨?_, ?_, ?_, ?_⟩
  · intro totalTokens h
    simp [calculateChunkCount, h]
  · intro totalTokens h
    have hn : 0 < totalTokens := by omega
    have hx : (0 : ℚ) < (totalTokens : ℚ) / (chunkSize : ℚ) := by
      apply div_pos <;> exact_mod_cast (by omega : (0 : ℕ) < _)
    have hpos : 0 < ⌈(totalTokens : ℚ) / (chunkSize : ℚ)⌉ := Int.ceil_pos.mpr hx
    simp only [calculateChunkCount, if_neg (by omega : ¬ totalTokens ≤ chunkSize)]
    exact Int.toNat_of_nonneg (by omega)
  · rw [calculateChunkCount_eq 250000 100000 (by norm_num) (by norm_num)]
  · intro tokens hne
    have hn : 0 < tokens.length := List.length_pos.mpr hne
    rw [chunkIterator_length, chunkList_length chunkSize hc,
      calculateChunkCount_eq tokens.length chunkSize hc hn]

/-- C4 as stated is false at `totalTokens = 0`: the computed chunk count is 1
but the iterator yields no chunks. -/
theorem C4_counterexample :
    calculateChunkCount 0 100000 = 1
    ∧ (chunkIterator ([] : List Nat) 100000).length = 0
    ∧ (chunkIterator ([] : List Nat) 100000).length ≠ calculateChunkCount 0 100000 := by
  refine ⟨rfl, rfl, by decide⟩

/-- Witness for C4: the concrete 250000-token, 100000-chunk-size count. -/
theorem C4_chunk_count_witness : calculateChunkCount 250000 100000 = 3 :=
  (C4_chunk_count 100000 (by decide)).2.2.1

/-! ## Claim C7 -/

/-- C7 (amended): sanitizing the empty input yields the empty string (hence
an empty token stream), and on an empty token stream `chunkIterator` yields
**no** chunks at all — the `while` guard fails immediately — although
`calculateChunkCount` still computes a total of 1.  The single empty chunk
the claim describes is never produced. -/
theorem C7_empty_input (cSize : Nat) (hc : 0 < cSize) :
    sanitizeText "" = "" ∧ chunkIterator ([] : List Nat) cSize = []
    ∧ calculateChunkCount 0 cSize = 1 := by
  refine ⟨rfl, rfl, ?_⟩
  simp [calculateChunkCount, Nat.zero_le]

/-- C7 as stated is false: for empty input the iterator yields zero chunks,
not one. -/
theorem C7_counterexample :
    (chunkIterator ([] : List Nat) 100000).length = 0
    ∧ (chunkIterator ([] : List Nat) 100000).length ≠ 1 := by
  decide

/-- Witness for C7 at the default chunk size 100000. -/
theorem C7_empty_input_witness : chunkIterator ([] : List Nat) 100000 = [] :=
  (C7_empty_input 100000 (by decide)).2.1

/-! ## Extraction lemmas (claim C2) -/

theorem openTag_cons (fmt : Option String) :
    openTag fmt = '<' :: ((tagNameFor fmt).data ++ ['>']) := rfl

theorem closeTag_cons (fmt : Option String) :
    closeTag fmt = '<' :: ('/' :: (tagNameFor fmt).data ++ ['>']) := rfl

theorem occursAt_head_eq {s : List Char} {ch : Char} {pat' : List Char} {i : Nat}
    (h : occursAt (ch :: pat') s i = true) : s[i]? = some ch := by
  unfold occursAt at h
  rw [List.isPrefixOf_iff_prefix] at h
  obtain ⟨t, ht⟩ := h
  have hh : (s.drop i).head? = some ch := by rw [← ht]; rfl
  rwa [List.head?_drop] at hh

theorem occursAt_append_self (pat rest pre : List Char) :
    occursAt pat (pre ++ (pat ++ rest)) pre.length = true := by
  unfold occursAt
  rw [List.drop_left, List.isPrefixOf_iff_prefix]
  exact List.prefix_append pat rest

theorem extract_decomposition (fmt : Option String) (noise body trailing : List Char)
    (hn : '<' ∉ noise) (hb : '<' ∉ body) :
    extractContentCore fmt (noise ++ openTag fmt ++ body ++ closeTag fmt ++ trailing)
      = .ok (jsTrim body) := by
  set o := openTag fmt with ho
  set cl := closeTag fmt with hcl
  have hassoc : noise ++ o ++ body ++ cl ++ trailing
      = noise ++ (o ++ (body ++ (cl ++ trailing))) := by simp [List.append_assoc]
  rw [hassoc]
  set s := noise ++ (o ++ (body ++ (cl ++ trailing))) with hs
  have hs3 : (noise ++ o) ++ (body ++ (cl ++ trailing)) = s := by
    rw [hs]; simp [List.append_assoc]
  have hs4 : ((noise ++ o) ++ body) ++ (cl ++ trailing) = s := by
    rw [hs]; simp [List.append_assoc]
  have hopen : occursAt o s noise.length = true := by
    rw [hs]; exact occursAt_append_self o (body ++ (cl ++ trailing)) noise
  have hopenmin : ∀ i, 0 ≤ i → i < noise.length → occursAt o s i = false := by
    intro i _ hi
    by_contra hcon
    rw [Bool.not_eq_false] at hcon
    rw [ho, openTag_cons] at hcon
    have hidx := occursAt_head_eq hcon
    rw [hs, List.getElem?_append, if_pos hi] at hidx
    exact hn (List.getElem?_mem hidx)
  have hclose : occursAt cl s (noise.length + o.length + body.length) = true := by
    have h2 := occursAt_append_self cl trailing ((noise ++ o) ++ body)
    rw [hs4] at h2
    rw [List.length_append, List.length_append] at h2
    exact h2
  have hclosemin : ∀ i, noise.length + o.length ≤ i →
      i < noise.length + o.length + body.length → occursAt cl s i = false := by
    intro i hge hlt
    by_contra hcon
    rw [Bool.not_eq_false] at hcon
    rw [hcl, closeTag_cons] at hcon
    have hidx := occursAt_head_eq hcon
    rw [← hs3] at hidx
    rw [List.getElem?_append_right (by rw [List.length_append]; omega)] at hidx
    rw [List.getElem?_append,
      if_pos (show i - (noise ++ o).length < body.length by
        rw [List.length_append]; omega)] at hidx
    exact hb (List.getElem?_mem hidx)
  have hfind1 : findOccur o s 0 = some noise.length := by
    apply findOccur_eq_some
    · rw [hs]; simp only [List.length_append]; omega
    · omega
    · exact hopen
    · exact hopenmin
  have hfind2 : findOccur cl s (noise.length + o.length)
      = some (noise.length + o.length + body.length) := by
    apply findOccur_eq_some
    · rw [← hs4]; simp only [List.length_append]; omega
    · omega
    · exact hclose
    · exact hclosemin
  have hdrop : s.drop (noise.length + o.length) = body ++ (cl ++ trailing) := by
    rw [← hs3, ← List.length_append, List.drop_left]
  unfold extractContentCore
  rw [← ho, ← hcl]
  simp only [hfind1, hfind2]
  have e : noise.length + o.length + body.length - (noise.length + o.length)
      = body.length := by omega
  rw [e, hdrop, List.take_left]

theorem missingTagError_contains (fmt : Option String) :
    strContains (missingTagError fmt) ("<" ++ tagNameFor fmt ++ ">") = true := by
  unfold missingTagError tagNameFor
  by_cases h1 : fmt = some "cline"
  · simp only [if_pos h1]; decide
  · by_cases h2 : fmt = some "roo"
    · simp only [if_neg h1, if_pos h2]; decide
    · simp only [if_neg h1, if_neg h2]; decide

/-! ## Claim C2 -/

/-- C2 (amended): final extraction returns, trimmed of whitespace, the
capture of the dialect-selected pattern with a **lazy** body,
`<tag>([\s\S]*?)</tag>` — the text from the first opening tag to the first
closing tag after it, not to the last closing tag as the claim's greedy
`(.*)` (dot-matches-newlines) would capture; the claim's concrete example
behaves as stated, and a draft with no match fails with an error naming the
missing tag. -/
theorem C2_extraction (fmt : Option String) (noise body trailing : List Char)
    (hn : '<' ∉ noise) (hb : '<' ∉ body) :
    extractContentCore fmt (noise ++ openTag fmt ++ body ++ closeTag fmt ++ trailing)
        = .ok (jsTrim body)
    ∧ extractContent (some "cursor") "noise <cursorrules>\nBODY\n</cursorrules> trailing"
        = .ok "BODY"
    ∧ (∀ text : String, findOccur (openTag fmt) text.data 0 = none →
        extractContent fmt text = .error (missingTagError fmt))
    ∧ (∀ (text : String) (p : Nat), findOccur (openTag fmt) text.data 0 = some p →
        findOccur (closeTag fmt) text.data (p + (openTag fmt).length) = none →
        extractContent fmt text = .error (missingTagError fmt))
    ∧ strContains (missingTagError fmt) ("<" ++ tagNameFor fmt ++ ">") = true := by
  refine ⟨extract_decomposition fmt noise body trailing hn hb, ?_, ?_, ?_,
    missingTagError_contains fmt⟩
  · rfl
  · intro text hnone
    unfold extractContent extractContentCore
    rw [hnone]
    rfl
  · intro text p hsome hnone
    unfold extractContent extractContentCore
    simp only [hsome, hnone]
    rfl

/-- C2 as stated is false: on a draft with two closing tags the code's lazy
pattern captures up to the first closing tag, while the claim's greedy
`<tag>(.*)</tag>` (dot matching newlines) captures up to the last one. -/
theorem C2_counterexample :
    extractContent (some "cursor") "<cursorrules>A</cursorrules>B</cursorrules>" = .ok "A"
    ∧ extractContentSpecGreedy (some "cursor") "<cursorrules>A</cursorrules>B</cursorrules>"
        = .ok "A</cursorrules>B"
    ∧ "A" ≠ "A</cursorrules>B" := by
  refine ⟨rfl, rfl, by decide⟩

/-- Witness for C2 at the claim's concrete decomposition: noise, body and
trailing text around a cursorrules tag pair. -/
theorem C2_extraction_witness :
    extractContentCore (some "cursor")
      ("noise ".data ++ openTag (some "cursor") ++ "\nBODY\n".data
        ++ closeTag (some "cursor") ++ " trailing".data)
      = .ok (jsTrim "\nBODY\n".data) :=
  (C2_extraction (some "cursor") "noise ".data "\nBODY\n".data " trailing".data
    (by decide) (by decide)).1

/-! ## Summarizer-loop lemmas (claim C3) -/

theorem chunkIterator_get_index {α : Type} (tokens : List α) (c i : Nat)
    (hi : i < (chunkIterator tokens c).length) :
    ((chunkIterator tokens c).get ⟨i, hi⟩).index = i := by
  simp [chunkIterator, List.get_eq_getElem, List.getElem_map, List.getElem_enum]

theorem runChunksLoop_cons (fmt desc rt : Option String) (gl : String)
    (decode : List Nat → String) (respond : String → String → String)
    (c : Chunk Nat) (rest : List (Chunk Nat)) (s0 : String) :
    runChunksLoop fmt desc rt gl decode respond (c :: rest) s0
      = ((runChunksLoop fmt desc rt gl decode respond rest
            (respond (systemPrompt fmt) (mkUserPrompt fmt desc rt gl decode c s0))).1,
         ⟨mkUserPrompt fmt desc rt gl decode c s0,
          respond (systemPrompt fmt) (mkUserPrompt fmt desc rt gl decode c s0)⟩ ::
         (runChunksLoop fmt desc rt gl decode respond rest
            (respond (systemPrompt fmt) (mkUserPrompt fmt desc rt gl decode c s0))).2) := rfl

theorem runChunksLoop_length (fmt desc rt : Option String) (gl : String)
    (decode : List Nat → String) (respond : String → String → String) :
    ∀ (cs : List (Chunk Nat)) (s0 : String),
      (runChunksLoop fmt desc rt gl decode respond cs s0).2.length = cs.length := by
  intro cs
  induction cs with
  | nil => intro s0; rfl
  | cons c rest ih =>
    intro s0
    rw [runChunksLoop_cons]
    simp [ih]

theorem runChunksLoop_get_response (fmt desc rt : Option String) (gl : String)
    (decode : List Nat → String) (respond : String → String → String) :
    ∀ (cs : List (Chunk Nat)) (s0 : String) (i : Nat)
      (hi : i < (runChunksLoop fmt desc rt gl decode respond cs s0).2.length),
      ((runChunksLoop fmt desc rt gl decode respond cs s0).2.get ⟨i, hi⟩).response
        = respond (systemPrompt fmt)
            ((runChunksLoop fmt desc rt gl decode respond cs s0).2.get ⟨i, hi⟩).prompt := by
  intro cs
  induction cs with
  | nil => intro s0 i hi; simp [runChunksLoop] at hi
  | cons c rest ih =>
    intro s0 i hi
    cases i with
    | zero => rfl
    | succ n =>
      have hlen := runChunksLoop_length fmt desc rt gl decode respond (c :: rest) s0
      rw [hlen, List.length_cons] at hi
      have hlr := runChunksLoop_length fmt desc rt gl decode respond rest
        (respond (systemPrompt fmt) (mkUserPrompt fmt desc rt gl decode c s0))
      exact ih _ n (by rw [hlr]; omega)

theorem runChunksLoop_prompt_succ (fmt desc rt : Option String) (gl : String)
    (decode : List Nat → String) (respond : String → String → String) :
    ∀ (cs : List (Chunk Nat)) (s0 : String) (i : Nat) (hcs : i + 1 < cs.length)
      (hi1 : i + 1 < (runChunksLoop fmt desc rt gl decode respond cs s0).2.length)
      (hi : i < (runChunksLoop fmt desc rt gl decode respond cs s0).2.length),
      ((runChunksLoop fmt desc rt gl decode respond cs s0).2.get ⟨i + 1, hi1⟩).prompt
        = mkUserPrompt fmt desc rt gl decode (cs.get ⟨i + 1, hcs⟩)
            (((runChunksLoop fmt desc rt gl decode respond cs s0).2.get ⟨i, hi⟩).response) := by
  intro cs
  induction cs with
  | nil => intro s0 i hcs _ _; simp at hcs
  | cons c rest ih =>
    intro s0 i hcs hi1 hi
    cases i with
    | zero =>
      cases rest with
      | nil => simp at hcs
      | cons c2 rest2 => rfl
    | succ n =>
      have hcs' : n + 1 < rest.length := by
        simp only [List.length_cons] at hcs; omega
      have hlr := runChunksLoop_length fmt desc rt gl decode respond rest
        (respond (systemPrompt fmt) (mkUserPrompt fmt desc rt gl decode c s0))
      exact ih _ n hcs' (by rw [hlr]; omega) (by rw [hlr]; omega)

theorem runChunksLoop_fst_nil (fmt desc rt : Option String) (gl : String)
    (decode : List Nat → String) (respond : String → String → String) :
    ∀ (cs : List (Chunk Nat)) (s0 : String),
      (runChunksLoop fmt desc rt gl decode respond cs s0).2 = [] →
      (runChunksLoop fmt desc rt gl decode respond cs s0).1 = s0 := by
  intro cs
  cases cs with
  | nil => intro s0 _; rfl
  | cons c rest =>
    intro s0 h
    rw [runChunksLoop_cons] at h
    simp at h

theorem runChunksLoop_fst (fmt desc rt : Option String) (gl : String)
    (decode : List Nat → String) (respond : String → String → String) :
    ∀ (cs : List (Chunk Nat)) (s0 : String) (t : StepTrace),
      (runChunksLoop fmt desc rt gl decode respond cs s0).2.getLast? = some t →
      (runChunksLoop fmt desc rt gl decode respond cs s0).1 = t.response := by
  intro cs
  induction cs with
  | nil => intro s0 t ht; simp [runChunksLoop] at ht
  | cons c rest ih =>
    intro s0 t ht
    rw [runChunksLoop_cons] at ht ⊢
    cases htail : (runChunksLoop fmt desc rt gl decode respond rest
        (respond (systemPrompt fmt) (mkUserPrompt fmt desc rt gl decode c s0))).2 with
    | nil =>
      rw [htail] at ht
      simp only [List.getLast?_singleton, Option.some.injEq] at ht
      rw [runChunksLoop_fst_nil fmt desc rt gl decode respond rest _ htail, ← ht]
    | cons x xs =>
      rw [htail, List.getLast?_cons_cons] at ht
      exact ih _ t (by rw [htail]; exact ht)

set_option maxRecDepth 4000 in
theorem updateChunkPrompt_contains (fmt desc rt : Option String) (gl ct s : String) :
    strContains (updateChunkPrompt fmt desc rt gl ct s) s = true := by
  unfold strContains
  rw [decide_eq_true_eq]
  unfold updateChunkPrompt
  simp only [String.data_append, List.append_assoc]
  apply infix_append_of_infix
  apply infix_append_of_infix
  apply infix_append_of_infix
  apply infix_append_of_infix
  apply infix_append_of_infix
  exact ⟨[], _, rfl⟩

/-! ## Claim C3 -/

/-- C3: in every run with more than one chunk the loop is strictly
sequential in ascending index order.  The trace has one step per chunk; each
step's raw (not yet extracted) provider response wholly replaces the running
draft; the prompt built for chunk `i+1` is the update prompt and contains,
verbatim as an exact substring, the raw response returned for chunk `i`;
and extraction is applied exactly once — to the last step's response, after
the final chunk — whenever the configuration validates. -/
theorem C3_sequential_threading (fmt desc rt : Option String) (gl : String)
    (decode : List Nat → String) (respond : String → String → String)
    (tokens : List Nat) (cSize : Nat)
    (hmulti : 1 < (chunkIterator tokens cSize).length) :
    let trace := (runChunksLoop fmt desc rt gl decode respond
      (chunkIterator tokens cSize) "").2
    trace.length = (chunkIterator tokens cSize).length
    ∧ (∀ i (hi : i < trace.length),
        (trace.get ⟨i, hi⟩).response
          = respond (systemPrompt fmt) (trace.get ⟨i, hi⟩).prompt)
    ∧ (∀ i (hi1 : i + 1 < trace.length) (hi : i < trace.length),
        strContains (trace.get ⟨i + 1, hi1⟩).prompt
          ((trace.get ⟨i, hi⟩).response) = true)
    ∧ (∀ (rqk : Bool) (dn : String) (config : LLMProviderConfig),
        validateConfig rqk dn config = .ok () →
        ∃ t, trace.getLast? = some t ∧
          generateWithProviderModel fmt desc rt gl decode respond rqk dn config tokens cSize
            = extractContent fmt t.response) := by
  intro trace
  have hlen : trace.length = (chunkIterator tokens cSize).length :=
    runChunksLoop_length fmt desc rt gl decode respond (chunkIterator tokens cSize) ""
  refine ⟨hlen, ?_, ?_, ?_⟩
  · intro i hi
    exact runChunksLoop_get_response fmt desc rt gl decode respond
      (chunkIterator tokens cSize) "" i hi
  · intro i hi1 hi
    have hcs : i + 1 < (chunkIterator tokens cSize).length := by rw [← hlen]; exact hi1
    rw [runChunksLoop_prompt_succ fmt desc rt gl decode respond
      (chunkIterator tokens cSize) "" i hcs hi1 hi]
    have hidx := chunkIterator_get_index tokens cSize (i + 1) hcs
    unfold mkUserPrompt
    rw [hidx, if_neg (Nat.succ_ne_zero i)]
    exact updateChunkPrompt_contains fmt desc rt gl _ _
  · intro rqk dn config hok
    have hne : trace ≠ [] := by
      intro hcon
      rw [hcon] at hlen
      simp at hlen
      omega
    obtain ⟨t, ht⟩ : ∃ t, trace.getLast? = some t := by
      cases htr : trace.getLast? with
      | some t => exact ⟨t, rfl⟩
      | none => exact absurd (List.getLast?_eq_none.mp htr) hne
    refine ⟨t, ht, ?_⟩
    unfold generateWithProviderModel
    simp only [hok]
    rw [runChunksLoop_fst fmt desc rt gl decode respond
      (chunkIterator tokens cSize) "" t ht]

/-- Witness for C3: a concrete two-chunk run (three tokens, chunk size 2)
with a constant provider oracle. -/
theorem C3_sequential_threading_witness :
    let trace := (runChunksLoop none none none "G" testDecode testRespond
      (chunkIterator [1, 2, 3] 2) "").2
    trace.length = (chunkIterator [1, 2, 3] 2).length
    ∧ (∀ i (hi : i < trace.length),
        (trace.get ⟨i, hi⟩).response
          = testRespond (systemPrompt none) (trace.get ⟨i, hi⟩).prompt)
    ∧ (∀ i (hi1 : i + 1 < trace.length) (hi : i < trace.length),
        strContains (trace.get ⟨i + 1, hi1⟩).prompt
          ((trace.get ⟨i, hi⟩).response) = true)
    ∧ (∀ (rqk : Bool) (dn : String) (config : LLMProviderConfig),
        validateConfig rqk dn config = .ok () →
        ∃ t, trace.getLast? = some t ∧
          generateWithProviderModel none none none "G" testDecode testRespond rqk dn config
              [1, 2, 3] 2
            = extractContent none t.response) :=
  C3_sequential_threading none none none "G" testDecode testRespond [1, 2, 3] 2 (by decide)

/-! ## Retry-loop lemmas (claim C5) -/

theorem anthropicAttempt_eq (config : LLMProviderConfig) (msgs : List LLMMessage)
    (req : AnthropicRequest)
    (hvalid : validateConfig true "Anthropic Claude" config = .ok ())
    (hreq : buildAnthropicRequest msgs config = some req)
    (net : Nat → Except ApiErr Js) (j : Nat) :
    anthropicAttempt config msgs net j =
      match net j with
      | .error e => .error e
      | .ok resp => .ok ⟨anthropicExtractContent resp, anthropicExtractUsage resp,
          config.model, "anthropic"⟩ := by
  unfold anthropicAttempt
  rw [hvalid, hreq]

theorem anthropicRetryLoop_succ (config : LLMProviderConfig) (msgs : List LLMMessage)
    (net : Nat → Except ApiErr Js) (fuel attempt : Nat) :
    anthropicRetryLoop config msgs net (fuel + 1) attempt
      = match anthropicAttempt config msgs net attempt with
        | .ok r => ⟨.ok r, []⟩
        | .error e =>
          if isRateLimit e && decide (attempt < 3) then
            ⟨(anthropicRetryLoop config msgs net fuel (attempt + 1)).result,
             2 ^ attempt * 2000 ::
               (anthropicRetryLoop config msgs net fuel (attempt + 1)).delays⟩
          else ⟨.error (handleApiError e "Anthropic API error"), []⟩ := rfl

theorem retryLoop_ok (config : LLMProviderConfig) (msgs : List LLMMessage)
    (req : AnthropicRequest)
    (hvalid : validateConfig true "Anthropic Claude" config = .ok ())
    (hreq : buildAnthropicRequest msgs config = some req)
    (net : Nat → Except ApiErr Js) (fuel attempt : Nat) (resp : Js)
    (h : net attempt = .ok resp) :
    anthropicRetryLoop config msgs net (fuel + 1) attempt
      = ⟨.ok ⟨anthropicExtractContent resp, anthropicExtractUsage resp,
          config.model, "anthropic"⟩, []⟩ := by
  have ha := anthropicAttempt_eq config msgs req hvalid hreq net attempt
  simp only [h] at ha
  rw [anthropicRetryLoop_succ]
  simp only [ha]

theorem retryLoop_rateLimited (config : LLMProviderConfig) (msgs : List LLMMessage)
    (req : AnthropicRequest)
    (hvalid : validateConfig true "Anthropic Claude" config = .ok ())
    (hreq : buildAnthropicRequest msgs config = some req)
    (net : Nat → Except ApiErr Js) (fuel attempt : Nat) (e : ApiErr)
    (h : net attempt = .error e) (hrl : isRateLimit e = true) (hlt : attempt < 3) :
    anthropicRetryLoop config msgs net (fuel + 1) attempt
      = ⟨(anthropicRetryLoop config msgs net fuel (attempt + 1)).result,
         2 ^ attempt * 2000 :: (anthropicRetryLoop config msgs net fuel (attempt + 1)).delays⟩ := by
  have ha := anthropicAttempt_eq config msgs req hvalid hreq net attempt
  simp only [h] at ha
  rw [anthropicRetryLoop_succ]
  simp [ha, hrl, decide_eq_true hlt]

theorem retryLoop_error_stop (config : LLMProviderConfig) (msgs : List LLMMessage)
    (req : AnthropicRequest)
    (hvalid : validateConfig true "Anthropic Claude" config = .ok ())
    (hreq : buildAnthropicRequest msgs config = some req)
    (net : Nat → Except ApiErr Js) (fuel attempt : Nat) (e : ApiErr)
    (h : net attempt = .error e)
    (hcond : (isRateLimit e && decide (attempt < 3)) = false) :
    anthropicRetryLoop config msgs net (fuel + 1) attempt
      = ⟨.error (handleApiError e "Anthropic API error"), []⟩ := by
  have ha := anthropicAttempt_eq config msgs req hvalid hreq net attempt
  simp only [h] at ha
  rw [anthropicRetryLoop_succ]
  simp [ha, hcond]

/-! ## Claim C5 -/

/-- C5: the Anthropic provider's generateResponse retries only rate-limited
failures (status 429 or a message containing a rate-limit indication), up to
3 additional attempts separated by backoff sleeps of 2000, 4000 and 8000 ms,
returning the first successful result (in particular, two rate-limited
failures followed by a success return the success after sleeps of 2000 and
4000 ms); a non-rate-limit error propagates immediately with no retry and no
sleep, and after exhausting all 3 retries the final rate-limited failure
propagates. -/
theorem C5_rate_limit_retry (config : LLMProviderConfig) (msgs : List LLMMessage)
    (req : AnthropicRequest)
    (hvalid : validateConfig true "Anthropic Claude" config = .ok ())
    (hreq : buildAnthropicRequest msgs config = some req) :
    (∀ (net : Nat → Except ApiErr Js) (k : Nat), k ≤ 3 → ∀ resp : Js,
      (∀ j, j < k → ∃ e, net j = .error e ∧ isRateLimit e = true) →
      net k = .ok resp →
      anthropicGenerateResponse config msgs net
        = ⟨.ok ⟨anthropicExtractContent resp, anthropicExtractUsage resp,
              config.model, "anthropic"⟩,
           (List.range k).map (fun j => 2 ^ j * 2000)⟩)
    ∧ (∀ (net : Nat → Except ApiErr Js) (e : ApiErr),
        net 0 = .error e → isRateLimit e = false →
        anthropicGenerateResponse config msgs net
          = ⟨.error (handleApiError e "Anthropic API error"), []⟩)
    ∧ (∀ (net : Nat → Except ApiErr Js) (es : Nat → ApiErr),
        (∀ j, j ≤ 3 → net j = .error (es j) ∧ isRateLimit (es j) = true) →
        anthropicGenerateResponse config msgs net
          = ⟨.error (handleApiError (es 3) "Anthropic API error"),
             [2000, 4000, 8000]⟩) := by
  refine ⟨?_, ?_, ?_⟩
  · intro net k hk resp hpre hok
    interval_cases k
    · exact retryLoop_ok config msgs req hvalid hreq net 3 0 resp hok
    · obtain ⟨e0, he0, hrl0⟩ := hpre 0 (by omega)
      have s0 : anthropicGenerateResponse config msgs net
          = ⟨(anthropicRetryLoop config msgs net 3 1).result,
             2 ^ 0 * 2000 :: (anthropicRetryLoop config msgs net 3 1).delays⟩ :=
        retryLoop_rateLimited config msgs req hvalid hreq net 3 0 e0 he0 hrl0 (by omega)
      have s1 : anthropicRetryLoop config msgs net 3 1
          = ⟨.ok ⟨anthropicExtractContent resp, anthropicExtractUsage resp,
              config.model, "anthropic"⟩, []⟩ :=
        retryLoop_ok config msgs req hvalid hreq net 2 1 resp hok
      rw [s0, s1]
      rfl
    · obtain ⟨e0, he0, hrl0⟩ := hpre 0 (by omega)
      obtain ⟨e1, he1, hrl1⟩ := hpre 1 (by omega)
      have s0 : anthropicGenerateResponse config msgs net
          = ⟨(anthropicRetryLoop config msgs net 3 1).result,
             2 ^ 0 * 2000 :: (anthropicRetryLoop config msgs net 3 1).delays⟩ :=
        retryLoop_rateLimited config msgs req hvalid hreq net 3 0 e0 he0 hrl0 (by omega)
      have s1 : anthropicRetryLoop config msgs net 3 1
          = ⟨(anthropicRetryLoop config msgs net 2 2).result,
             2 ^ 1 * 2000 :: (anthropicRetryLoop config msgs net 2 2).delays⟩ :=
        retryLoop_rateLimited config msgs req hvalid hreq net 2 1 e1 he1 hrl1 (by omega)
      have s2 : anthropicRetryLoop config msgs net 2 2
          = ⟨.ok ⟨anthropicExtractContent resp, anthropicExtractUsage resp,
              config.model, "anthropic"⟩, []⟩ :=
        retryLoop_ok config msgs req hvalid hreq net 1 2 resp hok
      rw [s0, s1, s2]
      rfl
    · obtain ⟨e0, he0, hrl0⟩ := hpre 0 (by omega)
      obtain ⟨e1, he1, hrl1⟩ := hpre 1 (by omega)
      obtain ⟨e2, he2, hrl2⟩ := hpre 2 (by omega)
      have s0 : anthropicGenerateResponse config msgs net
          = ⟨(anthropicRetryLoop config msgs net 3 1).result,
             2 ^ 0 * 2000 :: (anthropicRetryLoop config msgs net 3 1).delays⟩ :=
        retryLoop_rateLimited config msgs req hvalid hreq net 3 0 e0 he0 hrl0 (by omega)
      have s1 : anthropicRetryLoop config msgs net 3 1
          = ⟨(anthropicRetryLoop config msgs net 2 2).result,
             2 ^ 1 * 2000 :: (anthropicRetryLoop config msgs net 2 2).delays⟩ :=
        retryLoop_rateLimited config msgs req hvalid hreq net 2 1 e1 he1 hrl1 (by omega)
      have s2 : anthropicRetryLoop config msgs net 2 2
          = ⟨(anthropicRetryLoop config msgs net 1 3).result,
             2 ^ 2 * 2000 :: (anthropicRetryLoop config msgs net 1 3).delays⟩ :=
        retryLoop_rateLimited config msgs req hvalid hreq net 1 2 e2 he2 hrl2 (by omega)
      have s3 : anthropicRetryLoop config msgs net 1 3
          = ⟨.ok ⟨anthropicExtractContent resp, anthropicExtractUsage resp,
              config.model, "anthropic"⟩, []⟩ :=
        retryLoop_ok config msgs req hvalid hreq net 0 3 resp hok
      rw [s0, s1, s2, s3]
      rfl
  · intro net e h0 hrl
    exact retryLoop_error_stop config msgs req hvalid hreq net 3 0 e h0 (by rw [hrl]; rfl)
  · intro net es hall
    have s0 : anthropicGenerateResponse config msgs net
        = ⟨(anthropicRetryLoop config msgs net 3 1).result,
           2 ^ 0 * 2000 :: (anthropicRetryLoop config msgs net 3 1).delays⟩ :=
      retryLoop_rateLimited config msgs req hvalid hreq net 3 0 (es 0) (hall 0 (by omega)).1
        (hall 0 (by omega)).2 (by omega)
    have s1 : anthropicRetryLoop config msgs net 3 1
        = ⟨(anthropicRetryLoop config msgs net 2 2).result,
           2 ^ 1 * 2000 :: (anthropicRetryLoop config msgs net 2 2).delays⟩ :=
      retryLoop_rateLimited config msgs req hvalid hreq net 2 1 (es 1) (hall 1 (by omega)).1
        (hall 1 (by omega)).2 (by omega)
    have s2 : anthropicRetryLoop config msgs net 2 2
        = ⟨(anthropicRetryLoop config msgs net 1 3).result,
           2 ^ 2 * 2000 :: (anthropicRetryLoop config msgs net 1 3).delays⟩ :=
      retryLoop_rateLimited config msgs req hvalid hreq net 1 2 (es 2) (hall 2 (by omega)).1
        (hall 2 (by omega)).2 (by omega)
    have s3 : anthropicRetryLoop config msgs net 1 3
        = ⟨.error (handleApiError (es 3) "Anthropic API error"), []⟩ :=
      retryLoop_error_stop config msgs req hvalid hreq net 0 3 (es 3) (hall 3 (by omega)).1
        (by rw [(hall 3 (by omega)).2]; rfl)
    rw [s0, s1, s2, s3]
    rfl

/-- Witness for C5: a valid config and a network oracle that is rate-limited
twice (HTTP 429) and succeeds on the third attempt; the run returns the
success after backoff sleeps of 2000 and 4000 ms. -/
theorem C5_rate_limit_retry_witness :
    anthropicGenerateResponse anthropicTestConfig testMessages testNet
      = ⟨.ok ⟨anthropicExtractContent (Js.obj []), anthropicExtractUsage (Js.obj []),
          anthropicTestConfig.model, "anthropic"⟩,
         (List.range 2).map (fun j => 2 ^ j * 2000)⟩ :=
  (C5_rate_limit_retry anthropicTestConfig testMessages
      ⟨some "claude-3-5-sonnet-20241022", 8000, some "sys", [⟨Role.user, "hello"⟩]⟩
      rfl rfl).1
    testNet 2 (by decide) (Js.obj [])
    (fun j hj => ⟨⟨some 429, none⟩, by simp [testNet, hj], rfl⟩)
    (by simp [testNet])

/-! ## Claim C6 -/

/-- C6 (amended): validateConfig accepts temperature = 0 and temperature = 2
and rejects 2.0001 and -0.0001; it **accepts** maxTokens = 0 — contrary to
the claim — because the JavaScript truthiness guard
`config.maxTokens && config.maxTokens <= 0` skips the falsy zero; it accepts
maxTokens = 1; it fails when model is absent or when a required API key is
missing; and when validation fails, the pipeline returns the validation
error without ever consulting the provider (no network I/O happens: the
outcome is independent of the provider oracle). -/
theorem C6_validate_config :
    validateConfig true "P" ⟨some "m", some "k", none, none, some 0, none⟩ = .ok ()
    ∧ validateConfig true "P" ⟨some "m", some "k", none, none, some 2, none⟩ = .ok ()
    ∧ validateConfig true "P" ⟨some "m", some "k", none, none, some (20001 / 10000), none⟩
        = .error "temperature must be between 0 and 2"
    ∧ validateConfig true "P" ⟨some "m", some "k", none, none, some (-(1 / 10000)), none⟩
        = .error "temperature must be between 0 and 2"
    ∧ validateConfig true "P" ⟨some "m", some "k", none, some 0, none, none⟩ = .ok ()
    ∧ validateConfig true "P" ⟨some "m", some "k", none, some 1, none, none⟩ = .ok ()
    ∧ validateConfig true "P" ⟨none, some "k", none, none, none, none⟩
        = .error "Model is required for LLM generation"
    ∧ validateConfig true "P" ⟨some "m", none, none, none, none, none⟩
        = .error "P requires an API key. Please set the appropriate environment variable."
    ∧ (∀ (fmt desc rt : Option String) (gl : String) (decode : List Nat → String)
        (respond respondB : String → String → String) (rqk : Bool) (dn : String)
        (config : LLMProviderConfig) (tokens : List Nat) (cSize : Nat) (e : String),
        validateConfig rqk dn config = .error e →
          generateWithProviderModel fmt desc rt gl decode respond rqk dn config tokens cSize
              = .error e
          ∧ generateWithProviderModel fmt desc rt gl decode respond rqk dn config tokens cSize
              = generateWithProviderModel fmt desc rt gl decode respondB rqk dn config tokens
                  cSize) := by
  refine ⟨rfl, rfl, ?_, ?_, rfl, rfl, rfl, rfl, ?_⟩
  · norm_num [validateConfig, truthyStr, truthyNum]
    rw [if_neg (by decide : ¬ ("k" : String) = ""), if_neg (by decide : ¬ ("m" : String) = "")]
  · norm_num [validateConfig, truthyStr, truthyNum]
    rw [if_neg (by decide : ¬ ("k" : String) = ""), if_neg (by decide : ¬ ("m" : String) = "")]
  · intro fmt desc rt gl decode respond respondB rqk dn config tokens cSize e he
    constructor
    · unfold generateWithProviderModel
      simp only [he]
    · unfold generateWithProviderModel
      simp only [he]

/-- C6 as stated is false at maxTokens = 0: the validator accepts a zero
maxTokens (the claim says it is rejected). -/
theorem C6_counterexample :
    validateConfig true "Anthropic Claude"
      ⟨some "claude-3-5-sonnet-20241022", some "sk-test", none, some 0, none, none⟩
      = .ok () := rfl

/-! ## Claim C8 -/

/-- C8 (amended): response unwrapping tolerates missing usage fields in
every back end — an absent or falsy usage object yields `undefined`, and
absent counters default to zero — but the hard content-absence failure
("Unable to extract content from Bedrock response") exists only in the
Bedrock back end; the Anthropic, OpenAI and Local extractors return the
empty string when no recognizable content field is present. -/
theorem C8_response_unwrapping :
    anthropicExtractUsage (Js.obj []) = none
    ∧ openaiExtractUsage (Js.obj []) = none
    ∧ bedrockExtractUsage (some (Js.obj [])) = none
    ∧ bedrockExtractUsage none = none
    ∧ anthropicExtractUsage (Js.obj [("usage", Js.obj [])]) = some ⟨0, 0, 0⟩
    ∧ openaiExtractUsage (Js.obj [("usage", Js.obj [])]) = some ⟨0, 0, 0⟩
    ∧ bedrockExtractUsage (some (Js.obj [("usage", Js.obj [])])) = some ⟨0, 0, 0⟩
    ∧ bedrockExtractContent none
        = .error "Unable to extract content from Bedrock response"
    ∧ bedrockExtractContent (some (Js.obj []))
        = .error "Unable to extract content from Bedrock response"
    ∧ bedrockExtractContent (some (Js.obj [("content", Js.arr [])])) = .ok ""
    ∧ anthropicExtractContent (Js.obj []) = ""
    ∧ openaiExtractContent (Js.obj []) = ""
    ∧ (∀ rb : Js, rb.get? "usage" = none → anthropicExtractUsage rb = none)
    ∧ (∀ rb : Js, rb.get? "usage" = none → openaiExtractUsage rb = none) := by
  refine ⟨rfl, rfl, rfl, rfl, ?_, ?_, ?_, rfl, rfl, rfl, rfl, rfl, ?_, ?_⟩
  · norm_num [anthropicExtractUsage, Js.get?, Js.truthy, numOrZero, List.find?]
  · norm_num [openaiExtractUsage, Js.get?, Js.truthy, numOrZero, List.find?]
  · norm_num [bedrockExtractUsage, bedrockExtractUsage.titan, Js.get?, Js.truthy,
      numOrZero, List.find?]
  · intro rb h
    unfold anthropicExtractUsage
    rw [h]
  · intro rb h
    unfold openaiExtractUsage
    rw [h]

/-- C8 as stated is false for the hosted back ends: on a response with no
recognizable content field the Anthropic and OpenAI extractors return the
empty string, not a hard failure. -/
theorem C8_counterexample :
    anthropicExtractContent (Js.obj []) = ""
    ∧ openaiExtractContent (Js.obj []) = "" := ⟨rfl, rfl⟩

/-! ## Claim C9 -/

/-- C9: whenever the Anthropic request shaping produces a request (it
produces none when the input has no user/assistant message at all — the
code throws before sending), the sent message list is nonempty and its last
message carries role user, holding the content of the input's last
user/assistant message: an input ending in an assistant turn is reshaped
rather than sent as-is. -/
theorem C9_last_message_user (msgs : List LLMMessage) (config : LLMProviderConfig)
    (req : AnthropicRequest) (h : buildAnthropicRequest msgs config = some req) :
    req.messages ≠ []
    ∧ ∃ last, req.messages.getLast? = some last ∧ last.role = Role.user
      ∧ ∃ lm, (msgs.filter (fun m => m.role = Role.user || m.role = Role.assistant)).getLast?
            = some lm ∧ last.content = lm.content := by
  unfold buildAnthropicRequest at h
  cases hlast : (msgs.filter (fun m => m.role = Role.user || m.role = Role.assistant)).getLast?
    with
  | none => simp only [hlast] at h; exact Option.noConfusion h
  | some lm =>
    simp only [hlast, Option.some.injEq] at h
    rw [← h]
    exact ⟨by simp, ⟨Role.user, lm.content⟩, List.getLast?_concat _, rfl, lm, rfl, rfl⟩

/-- Witness for C9: an input whose last non-system message is an assistant
turn; the shaped request re-sends its content under role user. -/
theorem C9_last_message_user_witness :
    (AnthropicRequest.mk (some "m") 8000 (some "s")
        [⟨Role.user, "u"⟩, ⟨Role.user, "a"⟩]).messages ≠ []
    ∧ ∃ last, (AnthropicRequest.mk (some "m") 8000 (some "s")
        [⟨Role.user, "u"⟩, ⟨Role.user, "a"⟩]).messages.getLast? = some last
      ∧ last.role = Role.user
      ∧ ∃ lm, (reshapeTestMessages.filter
            (fun m => m.role = Role.user || m.role = Role.assistant)).getLast?
          = some lm ∧ last.content = lm.content :=
  C9_last_message_user reshapeTestMessages baseTestConfig
    (AnthropicRequest.mk (some "m") 8000 (some "s") [⟨Role.user, "u"⟩, ⟨Role.user, "a"⟩]) rfl

/-! ## Claim C10 -/

/-- C10: a numeric option set to exactly 0 is indistinguishable from an
absent option and is silently replaced by the default through the JavaScript
`||` idiom: the Anthropic and OpenAI request builders produce identical
requests for a zero and for an absent option — with max_tokens 8000 and
temperature 0.7 — a zero chunkDelay yields the default 5000 ms inter-chunk
wait, and a configuration with maxTokens = 0 and temperature = 0 passes
validation untouched. -/
theorem C10_zero_is_default :
    (∀ (cfg : LLMProviderConfig) (msgs : List LLMMessage),
        buildAnthropicRequest msgs { cfg with maxTokens := some 0 }
          = buildAnthropicRequest msgs { cfg with maxTokens := none })
    ∧ (∀ (cfg : LLMProviderConfig) (msgs : List LLMMessage),
        buildOpenAIRequest msgs { cfg with temperature := some 0 }
          = buildOpenAIRequest msgs { cfg with temperature := none })
    ∧ (∀ (cfg : LLMProviderConfig) (msgs : List LLMMessage) (req : AnthropicRequest),
        buildAnthropicRequest msgs { cfg with maxTokens := some 0 } = some req →
        req.max_tokens = 8000)
    ∧ (∀ (cfg : LLMProviderConfig) (msgs : List LLMMessage),
        (buildOpenAIRequest msgs { cfg with temperature := some 0 }).temperature = 7 / 10)
    ∧ interChunkDelay (some 0) = 5000
    ∧ interChunkDelay none = 5000
    ∧ validateConfig true "P" ⟨some "m", some "k", none, some 0, some 0, none⟩ = .ok () := by
  refine ⟨?_, ?_, ?_, ?_, ?_, rfl, rfl⟩
  · intro cfg msgs
    simp [buildAnthropicRequest, jsOrNum]
  · intro cfg msgs
    simp [buildOpenAIRequest, jsOrNum]
  · intro cfg msgs req h
    unfold buildAnthropicRequest at h
    cases hlast : (msgs.filter (fun m => m.role = Role.user || m.role = Role.assistant)).getLast?
      with
    | none => simp only [hlast] at h; exact Option.noConfusion h
    | some lm =>
      simp only [hlast, Option.some.injEq] at h
      rw [← h]
      simp [jsOrNum]
  · intro cfg msgs
    simp [buildOpenAIRequest, jsOrNum]
  · simp [interChunkDelay, jsOrNum]

end Cursorifier
